import Mathlib

/-!
Verification of the email-auto-operations repository: a shallow embedding in
Lean 4 of the rule-to-query compiler (`src/repositories/email.py`), the
workflow execution engine (`src/command_processor/workflow_processor.py`),
the workflow repository (`src/repositories/workflow.py`), the email upsert
(`src/repositories/email.py`) and the ingestion loop
(`src/command_processor/email_fetcher.py`), together with theorems settling
the frozen claims about them.

Conventions: Python dict rows become Lean structures; Python exceptions become
an explicit `Except PyErr` result; Python truthiness of optional values is
modelled explicitly (`pyTruthyNat`, `pyTruthyStr`); the Python substring test
`needle in hay` is modelled by `pyIn`; the database is modelled as in-memory
lists of rows with per-table id counters starting at 1 (PostgreSQL serial
columns).
-/

set_option maxRecDepth 100000

deriving instance DecidableEq for Except

/-- Whether the character list `needle` is a prefix of `hay` (Boolean, structural). -/
def charsStartWith : List Char → List Char → Bool
  | [], _ => true
  | _ :: _, [] => false
  | a :: as, b :: bs => a = b && charsStartWith as bs

/-- Whether the character list `needle` occurs contiguously inside `hay`. -/
def charsContain (needle : List Char) : List Char → Bool
  | [] => charsStartWith needle []
  | b :: bs => charsStartWith needle (b :: bs) || charsContain needle bs

/-- Python's `needle in hay` on strings: contiguous-substring test. -/
def pyIn (needle hay : String) : Bool := charsContain needle.data hay.data

/-- Python truthiness of an optional integer: `None` and `0` are falsy.
Models `if last_processed_id:` and `if not workflow_id:` in the source. -/
def pyTruthyNat : Option Nat → Bool
  | none => false
  | some n => !(n == 0)

/-- Python truthiness of an optional string: `None` and `""` are falsy.
Models `if not params.get("workflow_file_path"):` in the source. -/
def pyTruthyStr : Option String → Bool
  | none => false
  | some s => !(s == "")

/-- The Python exceptions raised by the embedded code: `KeyError` (dict lookup),
`ValueError`, `jsonschema.ValidationError`, and `AttributeError`
(attribute access on `None`). -/
inductive PyErr where
  | keyError (key : String)
  | valueError (msg : String)
  | validationError
  | attributeError
deriving Repr, DecidableEq

/-- One entry of a workflow's `rules` list
(`{field_name, predicate, value, value_unit?}`). -/
structure Rule where
  field_name : String
  predicate : String
  value : String
  value_unit : Option String := none
deriving Repr, DecidableEq

/-- A workflow document `{condition?, rules, action, action_target?}`;
`condition` is read with default "all" (`workflow.get("condition", "all")`). -/
structure Workflow where
  condition : Option String := none
  rules : List Rule := []
  action : String := ""
  action_target : Option String := none
deriving Repr, DecidableEq

/-- One entry of `FILTER_FIELDS_MAPPING` in `src/repositories/email.py`:
a type tag (`"string"` or `"timestamp"`) and the physical column expression. -/
structure FieldMapping where
  type : String
  field_name : String
deriving Repr, DecidableEq

/-- The `FILTER_FIELDS_MAPPING` registry of `src/repositories/email.py`;
`none` models the `KeyError` of an absent dict key. -/
def FILTER_FIELDS_MAPPING (f : String) : Option FieldMapping :=
  if f = "subject" then some ⟨"string", "subject"⟩
  else if f = "from" then some ⟨"string", "CONCAT(sender_email_address, ' ', sender_name)"⟩
  else if f = "to" then some ⟨"string", "CONCAT(er.email_address, ' ', er.name)"⟩
  else if f = "date_received" then some ⟨"timestamp", "received_timestamp"⟩
  else none

/-- The `FULL_TEXT_SEARCH_FIELDS` list of `src/repositories/email.py`. -/
def FULL_TEXT_SEARCH_FIELDS : List String := ["subject"]

/-- The `_apply_string_condition` method: looks the operator up in
`STRING_OPERATORS` and renders its template, else raises
`ValueError("Unsupported operator: ...")`. -/
def applyStringCondition (field_name op value : String) : Except PyErr String :=
  if op = "equals" then .ok (field_name ++ " = '" ++ value ++ "'")
  else if op = "not_equals" then .ok (field_name ++ " != '" ++ value ++ "'")
  else if op = "contains_tsvechor" then
    .ok ("to_tsvector('english', " ++ field_name ++ ") @@ plainto_tsquery('" ++ value ++ "')")
  else if op = "does_not_contains_tsvechor" then
    .ok ("NOT to_tsvector('english', " ++ field_name ++ ") @@ plainto_tsquery('" ++ value ++ "')")
  else if op = "contains" then .ok (field_name ++ " ILIKE '%" ++ value ++ "%'")
  else if op = "does_not_contains" then .ok (field_name ++ " NOT ILIKE '%" ++ value ++ "%'")
  else .error (.valueError ("Unsupported operator: " ++ op))

/-- Python `str(...)` rendering of the optional `value_unit`: `None` prints as "None". -/
def optValueType : Option String → String
  | none => "None"
  | some s => s

/-- The `_apply_timestamp_condition` method: looks the operator up in
`TIMESTAMP_OPERATORS` and renders its template, else raises
`ValueError("Unsupported operator: ...")`. -/
def applyTimestampCondition (field_name op value : String) (value_type : Option String) :
    Except PyErr String :=
  if op = "greater_than" then
    .ok (field_name ++ " > NOW() + interval '" ++ value ++ " " ++ optValueType value_type ++ "'")
  else if op = "less_than" then
    .ok (field_name ++ " < NOW() - interval '" ++ value ++ " " ++ optValueType value_type ++ "'")
  else .error (.valueError ("Unsupported operator: " ++ op))

/-- The initial value of the `query` variable in `_build_apply_filter_query`. -/
def baseSelectSql : String := "SELECT emails.id, emails.provider_id FROM emails"

/-- The recipient join appended for `to` rules in `_build_apply_filter_query`. -/
def recipientsJoinSql : String :=
  " JOIN email_recipients er ON emails.id = er.email_id AND er.type = 'to'"

/-- The mutable state of the rule loop of `_build_apply_filter_query`: the
`query` string built so far and the `condition_where_clause_conditions` list. -/
structure BuildSt where
  query : String
  conds : List String
deriving Repr, DecidableEq

/-- State at the top of the rule loop: base select, no conditions yet. -/
def initBuildSt : BuildSt := { query := baseSelectSql, conds := [] }

/-- The recipient-join injection for `to` rules: appended to the `query`
string when `"email_recipients" not in query`. -/
def injectJoin (query : String) (r : Rule) : String :=
  if r.field_name = "to" && !(pyIn "email_recipients" query) then
    query ++ recipientsJoinSql
  else query

/-- The predicate actually rendered: for fields in `FULL_TEXT_SEARCH_FIELDS`
the suffix `"_tsvechor"` is appended when `"contains" not in query` (the
`query` string built so far, after the join injection of the same iteration). -/
def rewriteFullText (query : String) (r : Rule) : String :=
  if FULL_TEXT_SEARCH_FIELDS.contains r.field_name && !(pyIn "contains" query) then
    r.predicate ++ "_tsvechor"
  else r.predicate

/-- One iteration of the rule loop of `_build_apply_filter_query`
(lines 194-218 of `src/repositories/email.py`): field registry lookup
(`KeyError` on an unknown field), recipient-join injection for `to`,
the `_tsvechor` rewrite for full-text fields, then the per-type
condition rendering. -/
def processRule (st : BuildSt) (r : Rule) : Except PyErr BuildSt :=
  match FILTER_FIELDS_MAPPING r.field_name with
  | none => .error (.keyError r.field_name)
  | some fm =>
    let q := injectJoin st.query r
    if fm.type = "string" then
      match applyStringCondition fm.field_name (rewriteFullText q r) r.value with
      | .ok c => .ok ⟨q, st.conds ++ [c]⟩
      | .error e => .error e
    else if fm.type = "timestamp" then
      match applyTimestampCondition fm.field_name r.predicate r.value r.value_unit with
      | .ok c => .ok ⟨q, st.conds ++ [c]⟩
      | .error e => .error e
    else .ok ⟨q, st.conds⟩

/-- The whole rule loop of `_build_apply_filter_query`, left to right;
the first raised exception aborts the loop. -/
def processFilterRules : BuildSt → List Rule → Except PyErr BuildSt
  | st, [] => .ok st
  | st, r :: rs =>
    match processRule st r with
    | .ok st' => processFilterRules st' rs
    | .error e => .error e

/-- The `default_where_clause_conditions` of `_build_apply_filter_query`:
user scoping, plus the keyset bound exactly when `last_processed_id` is truthy. -/
def defaultWhereConds (user_id : Nat) (last : Option Nat) : List String :=
  ["emails.user_id = " ++ toString user_id] ++
    (if pyTruthyNat last then ["emails.id < " ++ toString (last.getD 0)] else [])

/-- The `_build_apply_filter_query` method of `src/repositories/email.py`:
runs the rule loop, then assembles
`query + " WHERE " + defaults + " AND (" + conditions + ")" + " ORDER BY emails.id DESC LIMIT " + batch_size`. -/
def buildApplyFilterQuery (w : Workflow) (user_id : Nat) (last : Option Nat) (B : Nat) :
    Except PyErr String :=
  match processFilterRules initBuildSt w.rules with
  | .error e => .error e
  | .ok st =>
    let concatKw := if w.condition.getD "all" = "all" then "AND" else "OR"
    let defaultClause := String.intercalate " AND " (defaultWhereConds user_id last)
    let searchClause := String.intercalate (" " ++ concatKw ++ " ") st.conds
    .ok (st.query ++ " WHERE " ++ defaultClause ++ " AND (" ++ searchClause ++ ")" ++
      " ORDER BY emails.id DESC LIMIT " ++ toString B)

/-- The `get_emails_by_applying_rules` method: builds the query and only then
executes it against the store (`db` is the storage collaborator's
`query` capability); a compilation error is raised before `db` is consulted. -/
def getEmailsByApplyingRules (db : String → List (Nat × String)) (w : Workflow)
    (user_id : Nat) (last : Option Nat) (B : Nat) : Except PyErr (List (Nat × String)) :=
  match buildApplyFilterQuery w user_id last B with
  | .ok q => .ok (db q)
  | .error e => .error e

example :
    buildApplyFilterQuery
      { condition := some "all",
        rules := [{ field_name := "subject", predicate := "contains", value := "invoice" }],
        action := "mark_read" } 1 none 50 =
    .ok ("SELECT emails.id, emails.provider_id FROM emails WHERE emails.user_id = 1 AND " ++
      "(to_tsvector('english', subject) @@ plainto_tsquery('invoice'))" ++
      " ORDER BY emails.id DESC LIMIT 50") := by decide

example :
    buildApplyFilterQuery { condition := some "all", rules := [], action := "mark_read" }
      7 (some 120) 50 =
    .ok ("SELECT emails.id, emails.provider_id FROM emails WHERE emails.user_id = 7 AND " ++
      "emails.id < 120 AND ()" ++
      " ORDER BY emails.id DESC LIMIT 50") := by decide

/-- The base select text never contains the substring "contains". -/
lemma pyIn_contains_base : pyIn "contains" baseSelectSql = false := by decide

/-- The base select followed by the recipient join never contains "contains". -/
lemma pyIn_contains_base_join :
    pyIn "contains" (baseSelectSql ++ recipientsJoinSql) = false := by decide

/-- The recipient join marker is present once the join has been appended. -/
lemma pyIn_recipients_base_join :
    pyIn "email_recipients" (baseSelectSql ++ recipientsJoinSql) = true := by decide

/-- During the rule loop the `query` variable holds only the base select,
possibly extended by the recipient join: conditions are accumulated in the
separate `condition_where_clause_conditions` list and joined in only after
the loop. -/
def cleanQuery (q : String) : Prop :=
  q = baseSelectSql ∨ q = baseSelectSql ++ recipientsJoinSql

lemma injectJoin_clean {q : String} (r : Rule) (h : cleanQuery q) :
    cleanQuery (injectJoin q r) := by
  rcases h with h | h <;> subst h <;> unfold injectJoin
  · split
    · exact Or.inr rfl
    · exact Or.inl rfl
  · rw [pyIn_recipients_base_join]
    simp only [Bool.not_true, Bool.and_false, if_neg Bool.false_ne_true]
    exact Or.inr rfl

lemma rewriteFullText_clean {q : String} (r : Rule) (h : cleanQuery q) :
    rewriteFullText q r =
      if FULL_TEXT_SEARCH_FIELDS.contains r.field_name then r.predicate ++ "_tsvechor"
      else r.predicate := by
  unfold rewriteFullText
  rcases h with h | h <;> subst h
  · rw [pyIn_contains_base]
    simp
  · rw [pyIn_contains_base_join]
    simp

lemma processRule_clean {st st' : BuildSt} {r : Rule} (h : cleanQuery st.query)
    (hok : processRule st r = .ok st') : cleanQuery st'.query := by
  unfold processRule at hok
  cases hm : FILTER_FIELDS_MAPPING r.field_name with
  | none => rw [hm] at hok; exact absurd hok (by simp)
  | some fm =>
    rw [hm] at hok
    simp only at hok
    have hq : cleanQuery (injectJoin st.query r) := injectJoin_clean r h
    split at hok
    · cases hsc : applyStringCondition fm.field_name
        (rewriteFullText (injectJoin st.query r) r) r.value with
      | ok c => rw [hsc] at hok; cases hok; exact hq
      | error e => rw [hsc] at hok; cases hok
    · split at hok
      · cases htc : applyTimestampCondition fm.field_name r.predicate r.value r.value_unit with
        | ok c => rw [htc] at hok; cases hok; exact hq
        | error e => rw [htc] at hok; cases hok
      · cases hok; exact hq

lemma processFilterRules_clean :
    ∀ (rs : List Rule) (st st' : BuildSt), cleanQuery st.query →
      processFilterRules st rs = .ok st' → cleanQuery st'.query := by
  intro rs
  induction rs with
  | nil => intro st st' h hok; cases hok; exact h
  | cons r rs ih =>
    intro st st' h hok
    unfold processFilterRules at hok
    cases hr : processRule st r with
    | ok st1 =>
      rw [hr] at hok
      exact ih st1 st' (processRule_clean h hr) hok
    | error e => rw [hr] at hok; cases hok

/-- Variant of `processRule` that follows the amended reading of the spec:
the `contains`/`does_not_contains` rewrite to the text-search predicate is
applied unconditionally to every rule on a full-text-searchable field. -/
def processRuleFullTextAlways (st : BuildSt) (r : Rule) : Except PyErr BuildSt :=
  match FILTER_FIELDS_MAPPING r.field_name with
  | none => .error (.keyError r.field_name)
  | some fm =>
    let q := injectJoin st.query r
    if fm.type = "string" then
      let pred := if FULL_TEXT_SEARCH_FIELDS.contains r.field_name then
          r.predicate ++ "_tsvechor"
        else r.predicate
      match applyStringCondition fm.field_name pred r.value with
      | .ok c => .ok ⟨q, st.conds ++ [c]⟩
      | .error e => .error e
    else if fm.type = "timestamp" then
      match applyTimestampCondition fm.field_name r.predicate r.value r.value_unit with
      | .ok c => .ok ⟨q, st.conds ++ [c]⟩
      | .error e => .error e
    else .ok ⟨q, st.conds⟩

/-- The unconditional-rewrite rule loop. -/
def processFilterRulesFullTextAlways : BuildSt → List Rule → Except PyErr BuildSt
  | st, [] => .ok st
  | st, r :: rs =>
    match processRuleFullTextAlways st r with
    | .ok st' => processFilterRulesFullTextAlways st' rs
    | .error e => .error e

/-- The query builder with the unconditional rewrite. -/
def buildApplyFilterQueryFullTextAlways (w : Workflow) (user_id : Nat) (last : Option Nat)
    (B : Nat) : Except PyErr String :=
  match processFilterRulesFullTextAlways initBuildSt w.rules with
  | .error e => .error e
  | .ok st =>
    let concatKw := if w.condition.getD "all" = "all" then "AND" else "OR"
    let defaultClause := String.intercalate " AND " (defaultWhereConds user_id last)
    let searchClause := String.intercalate (" " ++ concatKw ++ " ") st.conds
    .ok (st.query ++ " WHERE " ++ defaultClause ++ " AND (" ++ searchClause ++ ")" ++
      " ORDER BY emails.id DESC LIMIT " ++ toString B)

lemma processRule_eq_always {st : BuildSt} (r : Rule) (h : cleanQuery st.query) :
    processRule st r = processRuleFullTextAlways st r := by
  unfold processRule processRuleFullTextAlways
  cases hm : FILTER_FIELDS_MAPPING r.field_name with
  | none => rfl
  | some fm =>
    simp only
    rw [rewriteFullText_clean r (injectJoin_clean r h)]

lemma processFilterRules_eq_always :
    ∀ (rs : List Rule) (st : BuildSt), cleanQuery st.query →
      processFilterRules st rs = processFilterRulesFullTextAlways st rs := by
  intro rs
  induction rs with
  | nil => intro st _; rfl
  | cons r rs ih =>
    intro st h
    unfold processFilterRules processFilterRulesFullTextAlways
    rw [← processRule_eq_always r h]
    cases hr : processRule st r with
    | ok st1 => exact ih st1 (processRule_clean h hr)
    | error e => rfl

/-- The concrete workflow refuting claim C5 as stated: an earlier rule on a
non-full-text field emits a substring (ILIKE) predicate, then a `subject
contains` rule follows. -/
def wfPriorSubstring : Workflow :=
  { condition := some "all",
    rules := [{ field_name := "from", predicate := "contains", value := "x" },
              { field_name := "subject", predicate := "contains", value := "y" }],
    action := "mark_read" }

/-- Claim C5, counterexample: in `wfPriorSubstring` the first rule has already
emitted the case-insensitive substring predicate (ILIKE) among the conditions
built so far, yet the second (subject) rule is still rewritten to the
token-based text-search predicate instead of the substring predicate
`subject ILIKE '%y%'` — because the `"contains" not in query` check inspects
only the `query` variable, which holds no rule conditions during the loop. -/
theorem contains_rewrite_ignores_prior_substring_operator :
    processFilterRules initBuildSt wfPriorSubstring.rules =
      .ok ⟨baseSelectSql,
        ["CONCAT(sender_email_address, ' ', sender_name) ILIKE '%x%'",
         "to_tsvector('english', subject) @@ plainto_tsquery('y')"]⟩ ∧
    pyIn "ILIKE" "CONCAT(sender_email_address, ' ', sender_name) ILIKE '%x%'" = true ∧
    ("to_tsvector('english', subject) @@ plainto_tsquery('y')" : String) ≠
      "subject ILIKE '%y%'" := by
  refine ⟨by decide, by decide, by decide⟩

/-- Claim C5 (corrected): the rule compiler rewrites `contains` and
`does_not_contains` on full-text-searchable fields to the token-based
text-search predicate unconditionally — the substring-operator check
`"contains" not in query` inspects only the query text built so far, and rule
conditions are accumulated in a separate list that is joined into the query
only after the loop, so the check never finds a substring operator there.
Hence the builder coincides with its unconditional-rewrite variant on every
workflow, user, cursor and batch size. -/
theorem buildApplyFilterQuery_always_rewrites_fulltext (w : Workflow) (user_id : Nat)
    (last : Option Nat) (B : Nat) :
    buildApplyFilterQuery w user_id last B =
      buildApplyFilterQueryFullTextAlways w user_id last B := by
  unfold buildApplyFilterQuery buildApplyFilterQueryFullTextAlways
  rw [processFilterRules_eq_always w.rules initBuildSt (Or.inl rfl)]

lemma charsStartWith_extend (n : List Char) :
    ∀ xs ys : List Char, charsStartWith n xs = true → charsStartWith n (xs ++ ys) = true := by
  induction n with
  | nil => intro xs ys _; rfl
  | cons a as ih =>
    intro xs ys h
    cases xs with
    | nil => simp [charsStartWith] at h
    | cons b bs =>
      simp only [charsStartWith, Bool.and_eq_true] at h
      simp only [List.cons_append, charsStartWith, Bool.and_eq_true]
      exact ⟨h.1, ih bs ys h.2⟩

lemma charsContain_nil_needle (ys : List Char) : charsContain [] ys = true := by
  cases ys <;> simp [charsContain, charsStartWith]

lemma charsContain_append_left (n : List Char) :
    ∀ xs ys : List Char, charsContain n xs = true → charsContain n (xs ++ ys) = true := by
  intro xs
  induction xs with
  | nil =>
    intro ys h
    cases n with
    | nil => simpa using charsContain_nil_needle ys
    | cons a as => simp [charsContain, charsStartWith] at h
  | cons b bs ih =>
    intro ys h
    simp only [charsContain, Bool.or_eq_true] at h
    simp only [List.cons_append, charsContain, Bool.or_eq_true]
    rcases h with h | h
    · exact Or.inl (by simpa [List.cons_append] using charsStartWith_extend n (b :: bs) ys h)
    · exact Or.inr (ih ys h)

lemma charsContain_append_right (n : List Char) :
    ∀ xs ys : List Char, charsContain n ys = true → charsContain n (xs ++ ys) = true := by
  intro xs
  induction xs with
  | nil => intro ys h; simpa using h
  | cons b bs ih =>
    intro ys h
    simp only [List.cons_append, charsContain, Bool.or_eq_true]
    exact Or.inr (ih ys h)

/-- If the needle occurs in `a` it occurs in `a ++ b`. -/
lemma pyIn_append_left (needle a b : String) (h : pyIn needle a = true) :
    pyIn needle (a ++ b) = true := by
  unfold pyIn at h ⊢
  rw [String.data_append]
  exact charsContain_append_left _ _ _ h

/-- If the needle occurs in `b` it occurs in `a ++ b`. -/
lemma pyIn_append_right (needle a b : String) (h : pyIn needle b = true) :
    pyIn needle (a ++ b) = true := by
  unfold pyIn at h ⊢
  rw [String.data_append]
  exact charsContain_append_right _ _ _ h

lemma append_empty_group (X Y : String) :
    X ++ " AND (" ++ "" ++ ")" ++ Y = X ++ " AND ()" ++ Y := by
  rw [String.append_empty, String.append_assoc X " AND (" ")"]
  have h : (" AND (" ++ ")" : String) = " AND ()" := by decide
  rw [h]

/-- The query that claim C6 describes, following the spec's words: all of the
user's emails scoped only by the user/cursor bound — no rule condition is
attached (the rule condition being vacuously true). Written for comparison
with what `_build_apply_filter_query` actually produces. -/
def vacuousScopedQuery (user_id : Nat) (last : Option Nat) (B : Nat) : String :=
  baseSelectSql ++ " WHERE " ++ String.intercalate " AND " (defaultWhereConds user_id last) ++
    " ORDER BY emails.id DESC LIMIT " ++ toString B

/-- An empty-rules workflow with condition "all". -/
def wfEmptyAll : Workflow := { condition := some "all", rules := [], action := "mark_read" }

/-- Claim C6, counterexample: compiling an empty rule list with condition
"all" for user 1 yields a query whose rule-condition group is the empty
parentheses `()`. SQL's boolean grammar has no empty parenthesized
expression, so this query is a syntax error at the storage engine rather
than a query matching all of the user's emails; in particular it differs
from the vacuous-true scoped query the claim describes. -/
theorem empty_rules_query_has_empty_group :
    buildApplyFilterQuery wfEmptyAll 1 none 50 =
      .ok ("SELECT emails.id, emails.provider_id FROM emails WHERE emails.user_id = 1" ++
        " AND () ORDER BY emails.id DESC LIMIT 50") ∧
    pyIn "()" ("SELECT emails.id, emails.provider_id FROM emails WHERE emails.user_id = 1" ++
        " AND () ORDER BY emails.id DESC LIMIT 50") = true ∧
    pyIn "()" (vacuousScopedQuery 1 none 50) = false ∧
    ("SELECT emails.id, emails.provider_id FROM emails WHERE emails.user_id = 1" ++
        " AND () ORDER BY emails.id DESC LIMIT 50") ≠ vacuousScopedQuery 1 none 50 := by
  refine ⟨by decide, by decide, by decide, by decide⟩

/-- Claim C6 (corrected): for every user and cursor, compiling a workflow
whose rule list is empty with condition "all" yields the scoping predicates
followed by the empty parenthesized group " AND ()" — `" AND ".join([])` is
the empty string — so the emitted query contains the substring "()" and is
not the vacuous-true scoped query over all of the user's emails. -/
theorem empty_rules_query_formula (w : Workflow) (user_id : Nat) (last : Option Nat)
    (B : Nat) (h1 : w.rules = []) (h2 : w.condition.getD "all" = "all") :
    buildApplyFilterQuery w user_id last B =
      .ok (baseSelectSql ++ " WHERE " ++
        String.intercalate " AND " (defaultWhereConds user_id last) ++ " AND ()" ++
        " ORDER BY emails.id DESC LIMIT " ++ toString B) ∧
    pyIn "()" (baseSelectSql ++ " WHERE " ++
        String.intercalate " AND " (defaultWhereConds user_id last) ++ " AND ()" ++
        " ORDER BY emails.id DESC LIMIT " ++ toString B) = true := by
  constructor
  · unfold buildApplyFilterQuery
    rw [h1]
    refine congrArg Except.ok ?_
    show baseSelectSql ++ " WHERE " ++
        String.intercalate " AND " (defaultWhereConds user_id last) ++ " AND (" ++ "" ++ ")" ++
        " ORDER BY emails.id DESC LIMIT " ++ toString B = _
    rw [append_empty_group]
  · apply pyIn_append_left
    apply pyIn_append_left
    apply pyIn_append_right
    decide

/-- Witness for `empty_rules_query_formula` at a concrete workflow, user,
cursor and batch size. -/
theorem empty_rules_query_formula_witness :
    wfEmptyAll.rules = [] ∧ wfEmptyAll.condition.getD "all" = "all" ∧
    buildApplyFilterQuery wfEmptyAll 3 (some 42) 50 =
      .ok (baseSelectSql ++ " WHERE " ++
        String.intercalate " AND " (defaultWhereConds 3 (some 42)) ++ " AND ()" ++
        " ORDER BY emails.id DESC LIMIT " ++ toString 50) ∧
    pyIn "()" (baseSelectSql ++ " WHERE " ++
        String.intercalate " AND " (defaultWhereConds 3 (some 42)) ++ " AND ()" ++
        " ORDER BY emails.id DESC LIMIT " ++ toString 50) = true :=
  ⟨rfl, rfl, (empty_rules_query_formula wfEmptyAll 3 (some 42) 50 rfl rfl).1,
    (empty_rules_query_formula wfEmptyAll 3 (some 42) 50 rfl rfl).2⟩

/-- Membership of an operator in the `STRING_OPERATORS` dict. -/
def stringOpSupported (op : String) : Bool :=
  op = "equals" || op = "not_equals" || op = "contains_tsvechor" ||
    op = "does_not_contains_tsvechor" || op = "contains" || op = "does_not_contains"

/-- Membership of an operator in the `TIMESTAMP_OPERATORS` dict. -/
def timestampOpSupported (op : String) : Bool :=
  op = "greater_than" || op = "less_than"

lemma applyStringCondition_unsupported (f v : String) {op : String}
    (h : stringOpSupported op = false) :
    applyStringCondition f op v = .error (.valueError ("Unsupported operator: " ++ op)) := by
  have h1 : ¬(op = "equals") := fun he => by simp [stringOpSupported, he] at h
  have h2 : ¬(op = "not_equals") := fun he => by simp [stringOpSupported, he] at h
  have h3 : ¬(op = "contains_tsvechor") := fun he => by simp [stringOpSupported, he] at h
  have h4 : ¬(op = "does_not_contains_tsvechor") := fun he => by
    simp [stringOpSupported, he] at h
  have h5 : ¬(op = "contains") := fun he => by simp [stringOpSupported, he] at h
  have h6 : ¬(op = "does_not_contains") := fun he => by simp [stringOpSupported, he] at h
  unfold applyStringCondition
  rw [if_neg h1, if_neg h2, if_neg h3, if_neg h4, if_neg h5, if_neg h6]

lemma applyTimestampCondition_unsupported (f v : String) (vt : Option String) {op : String}
    (h : timestampOpSupported op = false) :
    applyTimestampCondition f op v vt =
      .error (.valueError ("Unsupported operator: " ++ op)) := by
  have h1 : ¬(op = "greater_than") := fun he => by simp [timestampOpSupported, he] at h
  have h2 : ¬(op = "less_than") := fun he => by simp [timestampOpSupported, he] at h
  unfold applyTimestampCondition
  rw [if_neg h1, if_neg h2]

lemma append_tsvechor_eq_split {op a b : String} (hb : op ++ "_tsvechor" = a ++ b)
    (hlen : b.length = 9) : op = a ∧ ("_tsvechor" : String) = b := by
  have hl := congrArg String.length hb
  rw [String.length_append, String.length_append, hlen] at hl
  have e9 : ("_tsvechor" : String).length = 9 := rfl
  rw [e9] at hl
  have hlen2 : op.data.length = a.data.length := by
    have hx : op.length = a.length := by omega
    exact hx
  have hd := congrArg String.data hb
  rw [String.data_append, String.data_append] at hd
  have hinj := List.append_inj hd hlen2
  exact ⟨String.ext hinj.1, String.ext hinj.2⟩

/-- Appending the `_tsvechor` suffix to an operator that is not in
`STRING_OPERATORS` never lands back in `STRING_OPERATORS`: the only keys
ending in `_tsvechor` are those of the two supported `contains` variants. -/
lemma stringOpSupported_tsvechor {op : String} (h : stringOpSupported op = false) :
    stringOpSupported (op ++ "_tsvechor") = false := by
  by_contra hb
  rw [Bool.not_eq_false] at hb
  simp only [stringOpSupported, Bool.or_eq_true, decide_eq_true_eq] at hb
  rcases hb with ((((hb | hb) | hb) | hb) | hb) | hb
  · have hl := congrArg String.length hb
    rw [String.length_append] at hl
    have e9 : ("_tsvechor" : String).length = 9 := rfl
    have e6 : ("equals" : String).length = 6 := rfl
    rw [e9, e6] at hl
    omega
  · have hsplit : ("not_equals" : String) = "n" ++ "ot_equals" := by decide
    rw [hsplit] at hb
    have habs := (append_tsvechor_eq_split hb rfl).2
    exact absurd habs (by decide)
  · have hsplit : ("contains_tsvechor" : String) = "contains" ++ "_tsvechor" := by decide
    rw [hsplit] at hb
    have hop := (append_tsvechor_eq_split hb rfl).1
    rw [hop] at h
    simp [stringOpSupported] at h
  · have hsplit : ("does_not_contains_tsvechor" : String) =
        "does_not_contains" ++ "_tsvechor" := by decide
    rw [hsplit] at hb
    have hop := (append_tsvechor_eq_split hb rfl).1
    rw [hop] at h
    simp [stringOpSupported] at h
  · have hl := congrArg String.length hb
    rw [String.length_append] at hl
    have e9 : ("_tsvechor" : String).length = 9 := rfl
    have e8 : ("contains" : String).length = 8 := rfl
    rw [e9, e8] at hl
    omega
  · have hsplit : ("does_not_contains" : String) = "does_not" ++ "_contains" := by decide
    rw [hsplit] at hb
    have habs := (append_tsvechor_eq_split hb rfl).2
    exact absurd habs (by decide)

/-- The predicate the rule loop actually renders for a string-type rule is
either the rule's predicate or that predicate with `_tsvechor` appended; if
the rule's predicate is not in `STRING_OPERATORS`, the rendering fails with
the `Unsupported operator` error either way. -/
lemma applyStringCondition_rendered_unsupported (f v q : String) (r : Rule)
    (h : stringOpSupported r.predicate = false) :
    ∃ p, applyStringCondition f (rewriteFullText q r) v =
        .error (.valueError ("Unsupported operator: " ++ p)) ∧
      (p = r.predicate ∨ p = r.predicate ++ "_tsvechor") := by
  unfold rewriteFullText
  split
  · exact ⟨r.predicate ++ "_tsvechor",
      applyStringCondition_unsupported f v (stringOpSupported_tsvechor h), Or.inr rfl⟩
  · exact ⟨r.predicate, applyStringCondition_unsupported f v h, Or.inl rfl⟩

lemma processFilterRules_append (l1 l2 : List Rule) :
    ∀ st : BuildSt, processFilterRules st (l1 ++ l2) =
      match processFilterRules st l1 with
      | .ok st' => processFilterRules st' l2
      | .error e => .error e := by
  induction l1 with
  | nil => intro st; rfl
  | cons r rs ih =>
    intro st
    show (match processRule st r with
      | .ok st' => processFilterRules st' (rs ++ l2)
      | .error e => .error e) = _
    cases hr : processRule st r with
    | ok st1 => simp only [processFilterRules, hr, ih st1]
    | error e => simp only [processFilterRules, hr]

lemma processFilterRules_error_cons {st : BuildSt} {r : Rule} {e : PyErr}
    (post : List Rule) (hr : processRule st r = .error e) :
    processFilterRules st (r :: post) = .error e := by
  unfold processFilterRules
  rw [hr]

lemma buildApplyFilterQuery_error {w : Workflow} {user_id : Nat} {last : Option Nat}
    {B : Nat} {e : PyErr} (h : processFilterRules initBuildSt w.rules = .error e) :
    buildApplyFilterQuery w user_id last B = .error e := by
  unfold buildApplyFilterQuery
  rw [h]

lemma getEmailsByApplyingRules_error {w : Workflow} {user_id : Nat} {last : Option Nat}
    {B : Nat} {e : PyErr} (h : buildApplyFilterQuery w user_id last B = .error e)
    (db : String → List (Nat × String)) :
    getEmailsByApplyingRules db w user_id last B = .error e := by
  unfold getEmailsByApplyingRules
  rw [h]

/-- Whether a rule's predicate is unsupported for its field's type: the
field resolves in the registry, and the predicate is missing from the
operator dict of the field's type tag. -/
def ruleOpUnsupported (r : Rule) : Bool :=
  match FILTER_FIELDS_MAPPING r.field_name with
  | none => false
  | some fm =>
    if fm.type = "string" then !(stringOpSupported r.predicate)
    else if fm.type = "timestamp" then !(timestampOpSupported r.predicate)
    else false

/-- Claim C7: compiling a workflow containing a rule whose field name is not
in the field registry fails with the field lookup error (`KeyError` on the
`FILTER_FIELDS_MAPPING` dict — the spec's `UnsupportedFieldError`), and
compiling one containing a rule whose predicate is not supported for its
field's type fails with the `Unsupported operator` `ValueError` (the spec's
`UnsupportedPredicateError`); in both cases the failure occurs during query
construction, before any query is executed against the store: the result of
`get_emails_by_applying_rules` is the error for every possible store
behaviour `db`, which is never consulted. The offending rule is the first
rule of the list that fails (`pre` are the rules before it, which compile). -/
theorem ruleCompiler_fails_before_query_execution :
    (∀ (w : Workflow) (user_id : Nat) (last : Option Nat) (B : Nat)
        (pre post : List Rule) (r : Rule) (st : BuildSt),
      w.rules = pre ++ r :: post →
      processFilterRules initBuildSt pre = .ok st →
      FILTER_FIELDS_MAPPING r.field_name = none →
      buildApplyFilterQuery w user_id last B = .error (.keyError r.field_name) ∧
        ∀ db, getEmailsByApplyingRules db w user_id last B =
          .error (.keyError r.field_name)) ∧
    (∀ (w : Workflow) (user_id : Nat) (last : Option Nat) (B : Nat)
        (pre post : List Rule) (r : Rule) (st : BuildSt),
      w.rules = pre ++ r :: post →
      processFilterRules initBuildSt pre = .ok st →
      ruleOpUnsupported r = true →
      ∃ p, buildApplyFilterQuery w user_id last B =
          .error (.valueError ("Unsupported operator: " ++ p)) ∧
        (p = r.predicate ∨ p = r.predicate ++ "_tsvechor") ∧
        ∀ db, getEmailsByApplyingRules db w user_id last B =
          .error (.valueError ("Unsupported operator: " ++ p))) := by
  constructor
  · intro w user_id last B pre post r st hw hpre hm
    have hr : processRule st r = .error (.keyError r.field_name) := by
      unfold processRule
      rw [hm]
    have hrules : processFilterRules initBuildSt w.rules = .error (.keyError r.field_name) := by
      rw [hw, processFilterRules_append pre (r :: post) initBuildSt, hpre]
      exact processFilterRules_error_cons post hr
    exact ⟨buildApplyFilterQuery_error hrules,
      fun db => getEmailsByApplyingRules_error (buildApplyFilterQuery_error hrules) db⟩
  · intro w user_id last B pre post r st hw hpre hop
    unfold ruleOpUnsupported at hop
    cases hm : FILTER_FIELDS_MAPPING r.field_name with
    | none => rw [hm] at hop; cases hop
    | some fm =>
      rw [hm] at hop
      replace hop : (if fm.type = "string" then !(stringOpSupported r.predicate)
          else if fm.type = "timestamp" then !(timestampOpSupported r.predicate)
          else false) = true := hop
      by_cases hstr : fm.type = "string"
      · rw [if_pos hstr] at hop
        rw [Bool.not_eq_true'] at hop
        obtain ⟨p, hsc, hp⟩ := applyStringCondition_rendered_unsupported fm.field_name
          r.value (injectJoin st.query r) r hop
        have hr : processRule st r = .error (.valueError ("Unsupported operator: " ++ p)) := by
          unfold processRule
          rw [hm]
          simp only [if_pos hstr, hsc]
        have hrules : processFilterRules initBuildSt w.rules =
            .error (.valueError ("Unsupported operator: " ++ p)) := by
          rw [hw, processFilterRules_append pre (r :: post) initBuildSt, hpre]
          exact processFilterRules_error_cons post hr
        exact ⟨p, buildApplyFilterQuery_error hrules, hp,
          fun db => getEmailsByApplyingRules_error (buildApplyFilterQuery_error hrules) db⟩
      · rw [if_neg hstr] at hop
        by_cases hts : fm.type = "timestamp"
        · rw [if_pos hts] at hop
          rw [Bool.not_eq_true'] at hop
          have htc := applyTimestampCondition_unsupported fm.field_name r.value
            r.value_unit hop
          have hr : processRule st r =
              .error (.valueError ("Unsupported operator: " ++ r.predicate)) := by
            unfold processRule
            rw [hm]
            simp only [if_neg hstr, if_pos hts, htc]
          have hrules : processFilterRules initBuildSt w.rules =
              .error (.valueError ("Unsupported operator: " ++ r.predicate)) := by
            rw [hw, processFilterRules_append pre (r :: post) initBuildSt, hpre]
            exact processFilterRules_error_cons post hr
          exact ⟨r.predicate, buildApplyFilterQuery_error hrules, Or.inl rfl,
            fun db => getEmailsByApplyingRules_error (buildApplyFilterQuery_error hrules) db⟩
        · rw [if_neg hts] at hop
          cases hop

/-- A workflow whose single rule names a field missing from the registry. -/
def wfUnknownField : Workflow :=
  { condition := some "all",
    rules := [{ field_name := "folder", predicate := "equals", value := "Inbox" }],
    action := "mark_read" }

/-- A workflow whose single rule uses a predicate unsupported for its
(string-typed) field. -/
def wfUnknownPredicate : Workflow :=
  { condition := some "all",
    rules := [{ field_name := "from", predicate := "starts_with", value := "x" }],
    action := "mark_read" }

/-- Witness for `ruleCompiler_fails_before_query_execution` at concrete
workflows: an unknown field name and an unsupported predicate. -/
theorem ruleCompiler_fails_witness :
    (buildApplyFilterQuery wfUnknownField 1 none 50 = .error (.keyError "folder") ∧
      ∀ db, getEmailsByApplyingRules db wfUnknownField 1 none 50 =
        .error (.keyError "folder")) ∧
    (∃ p, buildApplyFilterQuery wfUnknownPredicate 1 none 50 =
        .error (.valueError ("Unsupported operator: " ++ p)) ∧
      (p = "starts_with" ∨ p = "starts_with" ++ "_tsvechor") ∧
      ∀ db, getEmailsByApplyingRules db wfUnknownPredicate 1 none 50 =
        .error (.valueError ("Unsupported operator: " ++ p))) :=
  ⟨ruleCompiler_fails_before_query_execution.1 wfUnknownField 1 none 50 [] []
      { field_name := "folder", predicate := "equals", value := "Inbox" } initBuildSt
      rfl rfl (by decide),
   ruleCompiler_fails_before_query_execution.2 wfUnknownPredicate 1 none 50 [] []
      { field_name := "from", predicate := "starts_with", value := "x" } initBuildSt
      rfl rfl (by decide)⟩

/-- The cursor bound of `_build_apply_filter_query` applied to the matching
set: `emails.id < cursor` is added exactly when `last_processed_id` is
truthy (`if last_processed_id:`). -/
def cursorFilter (cursor : Option Nat) (L : List Nat) : List Nat :=
  if pyTruthyNat cursor then L.filter (fun x => x < cursor.getD 0) else L

/-- The semantics of one page of `get_emails_by_applying_rules`: `L` is the
full set of the user's emails matching the workflow's rules, listed in
descending id order (the query's `ORDER BY emails.id DESC`); a page keeps
the ids below the cursor bound and takes the first `B` of them (`LIMIT`). -/
def fetchBatch (L : List Nat) (cursor : Option Nat) (B : Nat) : List Nat :=
  (cursorFilter cursor L).take B

/-- The batch loop of `_apply_rule` in
`src/command_processor/workflow_processor.py`: fetch a page, and while the
page is non-empty record it and continue with the cursor set to the page's
last element (`last_processed_email_id` after the inner for loop). The
`fuel` argument bounds the recursion; `applyRuleBatches` supplies enough
fuel for the loop to run to completion. -/
def batchLoopGo (L : List Nat) (B : Nat) : Nat → Option Nat → List (List Nat)
  | 0, _ => []
  | fuel + 1, cursor =>
    let batch := fetchBatch L cursor B
    if batch.isEmpty then []
    else batch :: batchLoopGo L B fuel (some (batch.getLastD 0))

/-- The `_apply_rule` batch loop started with no cursor. -/
def applyRuleBatches (L : List Nat) (B : Nat) : List (List Nat) :=
  batchLoopGo L B (L.length + 1) none

/-- Chunking a list into consecutive pieces of size `B` (the last piece may
be shorter). -/
def chunksOf (B : Nat) (L : List Nat) : List (List Nat) :=
  if h : B = 0 ∨ L = [] then [] else L.take B :: chunksOf B (L.drop B)
termination_by L.length
decreasing_by
  push_neg at h
  have h1 : 0 < L.length := List.length_pos.mpr h.2
  have h2 : 0 < B := Nat.pos_of_ne_zero h.1
  simp only [List.length_drop]
  omega

/-- The minimum of a list of naturals (0 for the empty list). -/
def listMin : List Nat → Nat
  | [] => 0
  | [x] => x
  | x :: y :: xs => min x (listMin (y :: xs))

lemma listMin_mem : ∀ (l : List Nat), l ≠ [] → listMin l ∈ l := by
  intro l
  induction l with
  | nil => intro h; exact absurd rfl h
  | cons x xs ih =>
    intro _
    cases xs with
    | nil => simp [listMin]
    | cons y ys =>
      show min x (listMin (y :: ys)) ∈ x :: y :: ys
      rcases le_total x (listMin (y :: ys)) with h | h
      · rw [min_eq_left h]; exact List.mem_cons_self x _
      · rw [min_eq_right h]; exact List.mem_cons_of_mem x (ih (by simp))

lemma getLastD_mem : ∀ (l : List Nat) (d : Nat), l ≠ [] → l.getLastD d ∈ l := by
  intro l
  induction l with
  | nil => intro d h; exact absurd rfl h
  | cons a l' ih =>
    intro d _
    rw [List.getLastD_cons]
    cases l' with
    | nil => simp
    | cons b t => exact List.mem_cons_of_mem a (ih a (by simp))

lemma pairwise_gt_getLastD_le :
    ∀ (l : List Nat) (d : Nat), l.Pairwise (· > ·) → ∀ x ∈ l, l.getLastD d ≤ x := by
  intro l
  induction l with
  | nil => intro d _ x hx; cases hx
  | cons a l' ih =>
    intro d hp x hx
    rw [List.getLastD_cons]
    cases l' with
    | nil =>
      rcases List.mem_cons.mp hx with rfl | h
      · exact le_rfl
      · cases h
    | cons b t =>
      rcases List.mem_cons.mp hx with rfl | h
      · exact le_of_lt ((List.pairwise_cons.mp hp).1 _ (getLastD_mem (b :: t) _ (by simp)))
      · exact ih _ (List.Pairwise.of_cons hp) x h

lemma filter_lt_getLastD_take {M : List Nat} {B : Nat} (hB : 0 < B) (hM : M ≠ [])
    (hp : M.Pairwise (· > ·)) :
    M.filter (fun x => x < (M.take B).getLastD 0) = M.drop B := by
  have hTne : M.take B ≠ [] := by
    rw [Ne, List.take_eq_nil_iff]
    push_neg
    exact ⟨hB.ne', hM⟩
  have hsplit : M.take B ++ M.drop B = M := List.take_append_drop B M
  have hp' : (M.take B ++ M.drop B).Pairwise (· > ·) := by rw [hsplit]; exact hp
  obtain ⟨hpT, _, hcross⟩ := List.pairwise_append.mp hp'
  have hmT : (M.take B).getLastD 0 ∈ M.take B := getLastD_mem (M.take B) 0 hTne
  have h1 : (M.take B).filter (fun x => x < (M.take B).getLastD 0) = [] :=
    List.filter_eq_nil_iff.mpr (fun x hx => by
      simp only [decide_eq_true_eq]
      exact not_lt.mpr (pairwise_gt_getLastD_le (M.take B) 0 hpT x hx))
  have h2 : (M.drop B).filter (fun x => x < (M.take B).getLastD 0) = M.drop B :=
    List.filter_eq_self.mpr (fun x hx => by
      simp only [decide_eq_true_eq]
      exact hcross _ hmT x hx)
  have hstep : (M.take B ++ M.drop B).filter (fun x => x < (M.take B).getLastD 0) =
      M.filter (fun x => x < (M.take B).getLastD 0) := by rw [hsplit]
  calc M.filter (fun x => x < (M.take B).getLastD 0)
      = (M.take B ++ M.drop B).filter (fun x => x < (M.take B).getLastD 0) := hstep.symm
    _ =(M.take B).filter (fun x => x < (M.take B).getLastD 0) ++
          (M.drop B).filter (fun x => x < (M.take B).getLastD 0) :=
        List.filter_append _ _
    _ = M.drop B := by rw [h1, h2]; simp

lemma filter_lt_filter_lt {L : List Nat} {c m : Nat} (hmc : m < c) :
    (L.filter (fun x => x < c)).filter (fun x => x < m) = L.filter (fun x => x < m) := by
  rw [List.filter_filter]
  refine List.filter_congr fun x _ => ?_
  by_cases h : x < m
  · simp [h, Nat.lt_trans h hmc]
  · simp [h]

lemma cursorFilter_sublist (cursor : Option Nat) (L : List Nat) :
    (cursorFilter cursor L).Sublist L := by
  unfold cursorFilter
  split
  · exact List.filter_sublist L
  · exact List.Sublist.refl L

lemma chunksOf_nil (B : Nat) : chunksOf B [] = [] := by
  rw [chunksOf]
  simp

lemma chunksOf_cons (B : Nat) (L : List Nat) (hB : B ≠ 0) (hL : L ≠ []) :
    chunksOf B L = L.take B :: chunksOf B (L.drop B) := by
  rw [chunksOf]
  rw [dif_neg (not_or.mpr ⟨hB, hL⟩)]

lemma cursorFilter_none (L : List Nat) : cursorFilter none L = L := rfl

lemma cursorFilter_some_pos {c : Nat} (hc : c ≠ 0) (L : List Nat) :
    cursorFilter (some c) L = L.filter (fun x => x < c) := by
  simp [cursorFilter, pyTruthyNat, hc]

/-- Re-querying with the bound `id < m`, where `m` is a member of the current
page's source set, filters the original matching set exactly as it filters
the current set: the two bounds nest. -/
lemma cursorFilter_step {L : List Nat} {cursor : Option Nat} {m : Nat} (hm0 : m ≠ 0)
    (hmM : m ∈ cursorFilter cursor L) :
    cursorFilter (some m) L = (cursorFilter cursor L).filter (fun x => x < m) := by
  rw [cursorFilter_some_pos hm0 L]
  cases cursor with
  | none => rfl
  | some c =>
    by_cases hc : c = 0
    · subst hc; rfl
    · rw [cursorFilter_some_pos hc L] at hmM ⊢
      have hmc : m < c := by
        have := List.mem_filter.mp hmM
        simpa using this.2
      exact (filter_lt_filter_lt hmc).symm

/-- With enough fuel, the batch loop over a strictly descending matching set
of positive ids is exactly size-`B` chunking of the cursor-filtered set. -/
lemma batchLoopGo_eq_chunksOf {L : List Nat} {B : Nat} (hB : 0 < B)
    (hp : L.Pairwise (· > ·)) (hpos : ∀ x ∈ L, 0 < x) :
    ∀ (fuel : Nat) (cursor : Option Nat), (cursorFilter cursor L).length < fuel →
      batchLoopGo L B fuel cursor = chunksOf B (cursorFilter cursor L) := by
  intro fuel
  induction fuel with
  | zero => intro cursor h; omega
  | succ fuel ih =>
    intro cursor hlt
    by_cases hMe : cursorFilter cursor L = []
    · show (if (fetchBatch L cursor B).isEmpty then [] else _) = _
      have hfb : fetchBatch L cursor B = [] := by
        unfold fetchBatch
        rw [hMe]
        exact List.take_nil
      rw [hfb, hMe, chunksOf_nil]
      rfl
    · have hpM : (cursorFilter cursor L).Pairwise (· > ·) :=
        List.Pairwise.sublist (cursorFilter_sublist cursor L) hp
      have hbatch_ne : (cursorFilter cursor L).take B ≠ [] := by
        rw [Ne, List.take_eq_nil_iff]
        push_neg
        exact ⟨hB.ne', hMe⟩
      have hmM : ((cursorFilter cursor L).take B).getLastD 0 ∈ cursorFilter cursor L :=
        List.take_subset B _ (getLastD_mem _ 0 hbatch_ne)
      have hm0 : ((cursorFilter cursor L).take B).getLastD 0 ≠ 0 :=
        (hpos _ ((cursorFilter_sublist cursor L).subset hmM)).ne'
      have hnext : cursorFilter (some (((cursorFilter cursor L).take B).getLastD 0)) L =
          (cursorFilter cursor L).drop B := by
        rw [cursorFilter_step hm0 hmM]
        exact filter_lt_getLastD_take hB hMe hpM
      have hlen : ((cursorFilter cursor L).drop B).length < fuel := by
        rw [List.length_drop]
        have hMp : 0 < (cursorFilter cursor L).length := List.length_pos.mpr hMe
        omega
      show (if (fetchBatch L cursor B).isEmpty then []
        else (fetchBatch L cursor B) ::
          batchLoopGo L B fuel (some ((fetchBatch L cursor B).getLastD 0))) = _
      have hfb : fetchBatch L cursor B = (cursorFilter cursor L).take B := rfl
      rw [hfb, if_neg (by simpa [List.isEmpty_iff] using hbatch_ne)]
      rw [ih (some (((cursorFilter cursor L).take B).getLastD 0)) (by rw [hnext]; exact hlen)]
      rw [hnext, ← chunksOf_cons B _ hB.ne' hMe]

lemma applyRuleBatches_eq_chunksOf {L : List Nat} {B : Nat} (hB : 0 < B)
    (hp : L.Pairwise (· > ·)) (hpos : ∀ x ∈ L, 0 < x) :
    applyRuleBatches L B = chunksOf B L := by
  unfold applyRuleBatches
  rw [batchLoopGo_eq_chunksOf hB hp hpos (L.length + 1) none
    (by rw [cursorFilter_none]; omega), cursorFilter_none]

lemma chunksOf_length (B : Nat) (hB : 0 < B) :
    ∀ (n : Nat) (L : List Nat), L.length ≤ n →
      (chunksOf B L).length = (L.length + B - 1) / B := by
  intro n
  induction n with
  | zero =>
    intro L h
    have hL : L = [] := List.eq_nil_of_length_eq_zero (Nat.le_zero.mp h)
    subst hL
    rw [chunksOf_nil]
    simp only [List.length_nil]
    exact (Nat.div_eq_of_lt (by omega)).symm
  | succ n ih =>
    intro L h
    by_cases hL : L = []
    · subst hL
      rw [chunksOf_nil]
      simp only [List.length_nil]
      exact (Nat.div_eq_of_lt (by omega)).symm
    · rw [chunksOf_cons B L hB.ne' hL]
      have hpos : 0 < L.length := List.length_pos.mpr hL
      have hdrop : (L.drop B).length = L.length - B := List.length_drop B L
      rw [List.length_cons, ih (L.drop B) (by omega)]
      rw [hdrop]
      rcases le_or_lt B L.length with hle | hlt
      · have h1 : L.length - B + B - 1 = L.length - 1 := by omega
        have h2 : L.length + B - 1 = (L.length - 1) + B := by omega
        rw [h1, h2, Nat.add_div_right _ hB]
      · have h1 : L.length - B = 0 := by omega
        rw [h1]
        rw [Nat.div_eq_of_lt (by omega : 0 + B - 1 < B)]
        rw [Nat.div_eq_of_lt_le (by omega : 1 * B ≤ L.length + B - 1)
          (by omega : L.length + B - 1 < (1 + 1) * B)]

lemma chunksOf_flatten (B : Nat) (hB : 0 < B) :
    ∀ (n : Nat) (L : List Nat), L.length ≤ n → (chunksOf B L).flatten = L := by
  intro n
  induction n with
  | zero =>
    intro L h
    have hL : L = [] := List.eq_nil_of_length_eq_zero (Nat.le_zero.mp h)
    subst hL
    rw [chunksOf_nil]
    rfl
  | succ n ih =>
    intro L h
    by_cases hL : L = []
    · subst hL
      rw [chunksOf_nil]
      rfl
    · rw [chunksOf_cons B L hB.ne' hL, List.flatten_cons]
      have hpos : 0 < L.length := List.length_pos.mpr hL
      rw [ih (L.drop B) (by rw [List.length_drop]; omega)]
      exact List.take_append_drop B L

lemma chunksOf_ne_nil (B : Nat) (hB : 0 < B) :
    ∀ (n : Nat) (L : List Nat), L.length ≤ n → ∀ b ∈ chunksOf B L, b ≠ [] := by
  intro n
  induction n with
  | zero =>
    intro L h b hb
    have hL : L = [] := List.eq_nil_of_length_eq_zero (Nat.le_zero.mp h)
    subst hL
    rw [chunksOf_nil] at hb
    cases hb
  | succ n ih =>
    intro L h b hb
    by_cases hL : L = []
    · subst hL
      rw [chunksOf_nil] at hb
      cases hb
    · rw [chunksOf_cons B L hB.ne' hL] at hb
      rcases List.mem_cons.mp hb with rfl | hb
      · rw [Ne, List.take_eq_nil_iff]
        push_neg
        exact ⟨hB.ne', hL⟩
      · have hpos : 0 < L.length := List.length_pos.mpr hL
        exact ih (L.drop B) (by rw [List.length_drop]; omega) b hb

/-- Claim C2: for a finite matching set of `N` emails, given as its strictly
descending list of ids `L` (the order the query returns: `ORDER BY emails.id
DESC`) with all ids positive (PostgreSQL serial ids), and a batch size
`B > 0`, the `_apply_rule` batch loop terminates after exactly
`ceil(N / B) = (N + B - 1) / B` non-empty batches; each batch's minimum id is
strictly smaller than the previous batch's minimum id; and no id appears in
more than one batch (the concatenation of all batches has no duplicates). -/
theorem applyRule_pagination (L : List Nat) (B : Nat) (hB : 0 < B)
    (hp : L.Pairwise (· > ·)) (hpos : ∀ x ∈ L, 0 < x) :
    (applyRuleBatches L B).length = (L.length + B - 1) / B ∧
    (∀ b ∈ applyRuleBatches L B, b ≠ []) ∧
    (applyRuleBatches L B).Chain' (fun b1 b2 => listMin b2 < listMin b1) ∧
    (applyRuleBatches L B).flatten.Nodup := by
  rw [applyRuleBatches_eq_chunksOf hB hp hpos]
  have hflat : (chunksOf B L).flatten = L := chunksOf_flatten B hB L.length L le_rfl
  have hne := chunksOf_ne_nil B hB L.length L le_rfl
  refine ⟨chunksOf_length B hB L.length L le_rfl, hne, ?_, ?_⟩
  · have hpf : ((chunksOf B L).flatten).Pairwise (· > ·) := by rw [hflat]; exact hp
    have hcross := (List.pairwise_flatten.mp hpf).2
    have hchain : (chunksOf B L).Pairwise (fun b1 b2 => listMin b2 < listMin b1) :=
      hcross.imp_of_mem (fun h1 h2 hc =>
        hc (listMin _) (listMin_mem _ (hne _ h1)) (listMin _) (listMin_mem _ (hne _ h2)))
    exact hchain.chain'
  · rw [hflat]
    exact hp.imp (fun h => ne_of_gt h)

/-- Witness for `applyRule_pagination`: five matching ids, batch size two;
the loop produces ceil(5/2) = 3 batches. -/
theorem applyRule_pagination_witness :
    (0 < 2 ∧ ([9, 7, 4, 2, 1] : List Nat).Pairwise (· > ·) ∧
      (∀ x ∈ ([9, 7, 4, 2, 1] : List Nat), 0 < x)) ∧
    ((applyRuleBatches [9, 7, 4, 2, 1] 2).length = (([9, 7, 4, 2, 1] : List Nat).length + 2 - 1) / 2 ∧
      (∀ b ∈ applyRuleBatches [9, 7, 4, 2, 1] 2, b ≠ []) ∧
      (applyRuleBatches [9, 7, 4, 2, 1] 2).Chain' (fun b1 b2 => listMin b2 < listMin b1) ∧
      (applyRuleBatches [9, 7, 4, 2, 1] 2).flatten.Nodup) :=
  ⟨⟨by decide, by decide, by decide⟩,
    applyRule_pagination [9, 7, 4, 2, 1] 2 (by decide) (by decide) (by decide)⟩

example : applyRuleBatches [9, 7, 4, 2, 1] 2 = [[9, 7], [4, 2], [1]] := by decide

/-- An address dict `{"name": ..., "email": ...}` as produced by the parsers. -/
structure EmailAddress where
  name : Option String := none
  email : Option String := none
deriving Repr, DecidableEq

/-- An attachment dict `{"filename": ..., "mime_type": ...}`. -/
structure AttachmentInfo where
  filename : Option String := none
  mime_type : Option String := none
deriving Repr, DecidableEq

/-- A provider message as consumed by `upsert_email` and `_process_email`:
`sender` models the message's "from" key (`from` is a Lean keyword);
`received_timestamp` is epoch milliseconds; `id` is the provider id;
`toRecipients`/`ccRecipients` model the "to" and "cc" keys (`to` is a Lean
keyword). -/
structure Message where
  id : String
  subject : String := ""
  body : String := ""
  body_plain_text : String := ""
  received_timestamp : Nat := 0
  sender : EmailAddress := {}
  toRecipients : List EmailAddress := []
  ccRecipients : List EmailAddress := []
  attachments : List AttachmentInfo := []
  folders : List String := []
deriving Repr, DecidableEq

/-- A row of the `emails` table; `received_timestamp` is stored in seconds
(the source divides the message's milliseconds by 1000 before converting). -/
structure EmailRow where
  id : Nat
  provider_id : String
  user_id : Nat
  subject : String
  body : String
  body_plain_text : String
  received_timestamp : Nat
  sender_name : Option String
  sender_email_address : Option String
deriving Repr, DecidableEq

/-- A row of the `email_recipients` table. -/
structure RecipientRow where
  email_id : Nat
  email_address : Option String
  type : String
  name : Option String
deriving Repr, DecidableEq

/-- A row of the `email_folders` association table. -/
structure EmailFolderRow where
  folder_id : Nat
  email_id : Nat
deriving Repr, DecidableEq

/-- A row of the `email_attachments` table. -/
structure AttachmentRow where
  name : Option String
  mime_type : Option String
  email_id : Nat
deriving Repr, DecidableEq

/-- The email-related tables of the store, with the serial id counter of the
`emails` table (PostgreSQL serial ids start at 1). -/
structure EmailStore where
  emails : List EmailRow := []
  email_recipients : List RecipientRow := []
  email_folders : List EmailFolderRow := []
  email_attachments : List AttachmentRow := []
  nextEmailId : Nat := 1
deriving Repr, DecidableEq

/-- The duplicate check of `upsert_email`: same provider id and same user. -/
def emailMatches (user_id : Nat) (m : Message) (r : EmailRow) : Bool :=
  r.provider_id = m.id && r.user_id = user_id

/-- The `count("emails", {provider_id, user_id})` call of `upsert_email`. -/
def countEmails (σ : EmailStore) (user_id : Nat) (m : Message) : Nat :=
  σ.emails.countP (emailMatches user_id m)

/-- The `upsert_email` method of `src/repositories/email.py`: if an email
with the same (user, provider id) already exists, return without touching
the store; otherwise insert the email row and its recipient (`to` then
`cc`), folder-association and attachment child rows. -/
def upsertEmail (σ : EmailStore) (user_id : Nat) (m : Message) (folder_ids : List Nat) :
    EmailStore :=
  if 0 < countEmails σ user_id m then σ
  else
    let email_id := σ.nextEmailId
    let newRow : EmailRow :=
      { id := email_id,
        provider_id := m.id,
        user_id := user_id,
        subject := m.subject,
        body := m.body,
        body_plain_text := m.body_plain_text,
        received_timestamp := m.received_timestamp / 1000,
        sender_name := m.sender.name,
        sender_email_address := m.sender.email }
    let toRow : EmailAddress → RecipientRow := fun a =>
      { email_id := email_id, email_address := a.email, type := "to", name := a.name }
    let ccRow : EmailAddress → RecipientRow := fun a =>
      { email_id := email_id, email_address := a.email, type := "cc", name := a.name }
    { σ with
      emails := σ.emails ++ [newRow],
      email_recipients := σ.email_recipients ++
        m.toRecipients.map toRow ++ m.ccRecipients.map ccRow,
      email_folders := σ.email_folders ++
        folder_ids.map (fun fid => { folder_id := fid, email_id := email_id }),
      email_attachments := σ.email_attachments ++
        m.attachments.map (fun a =>
          { name := a.filename, mime_type := a.mime_type, email_id := email_id }),
      nextEmailId := email_id + 1 }

lemma upsertEmail_skip {σ : EmailStore} {user_id : Nat} {m : Message}
    (folder_ids : List Nat) (h : 0 < countEmails σ user_id m) :
    upsertEmail σ user_id m folder_ids = σ := by
  unfold upsertEmail
  rw [if_pos h]

lemma upsertEmail_count_new {σ : EmailStore} {user_id : Nat} {m : Message}
    (folder_ids : List Nat) (h : countEmails σ user_id m = 0) :
    countEmails (upsertEmail σ user_id m folder_ids) user_id m = 1 := by
  unfold upsertEmail
  rw [if_neg (by omega)]
  show (σ.emails ++ [_]).countP (emailMatches user_id m) = 1
  rw [List.countP_append]
  unfold countEmails at h
  rw [h]
  simp [List.countP_cons, emailMatches]

lemma upsertEmail_count_pos (σ : EmailStore) (user_id : Nat) (m : Message)
    (folder_ids : List Nat) :
    0 < countEmails (upsertEmail σ user_id m folder_ids) user_id m := by
  by_cases h : 0 < countEmails σ user_id m
  · rw [upsertEmail_skip folder_ids h]
    exact h
  · rw [upsertEmail_count_new folder_ids (by omega)]
    omega

/-- Claim C3: if an email with the same (user, provider id) pair already
exists, `upsert_email` returns without writing anything — the whole store
(email row and recipient / folder-association / attachment child rows) is
unchanged; consequently a first ingestion leaves exactly one matching email
row, and re-ingesting the same message is a no-op on the whole store. -/
theorem upsertEmail_idempotent (σ : EmailStore) (user_id : Nat) (m : Message)
    (folder_ids : List Nat) :
    (0 < countEmails σ user_id m → upsertEmail σ user_id m folder_ids = σ) ∧
    (countEmails σ user_id m = 0 →
      countEmails (upsertEmail σ user_id m folder_ids) user_id m = 1) ∧
    upsertEmail (upsertEmail σ user_id m folder_ids) user_id m folder_ids =
      upsertEmail σ user_id m folder_ids := by
  refine ⟨fun h => upsertEmail_skip folder_ids h,
    fun h => upsertEmail_count_new folder_ids h, ?_⟩
  exact upsertEmail_skip folder_ids (upsertEmail_count_pos σ user_id m folder_ids)

/-- A concrete message for the witnesses. -/
def msgW : Message :=
  { id := "prov-1", subject := "hello", received_timestamp := 1700000000000,
    sender := { name := some "A", email := some "a@x.test" },
    toRecipients := [{ email := some "b@x.test" }],
    attachments := [{ filename := some "f.pdf", mime_type := some "application/pdf" }],
    folders := ["INBOX"] }

/-- A store already holding `msgW` for user 1. -/
def storeW : EmailStore := upsertEmail {} 1 msgW [2]

/-- Witness for `upsertEmail_idempotent`: a store already containing the
message (the skip branch), and a fresh store (exactly one row after the
first ingestion, second ingestion a no-op). -/
theorem upsertEmail_idempotent_witness :
    (0 < countEmails storeW 1 msgW ∧ upsertEmail storeW 1 msgW [2] = storeW) ∧
    (countEmails {} 1 msgW = 0 ∧ countEmails (upsertEmail {} 1 msgW [2]) 1 msgW = 1) ∧
    upsertEmail (upsertEmail {} 1 msgW [2]) 1 msgW [2] = upsertEmail {} 1 msgW [2] :=
  ⟨⟨by decide, (upsertEmail_idempotent storeW 1 msgW [2]).1 (by decide)⟩,
   ⟨by decide, (upsertEmail_idempotent {} 1 msgW [2]).2.1 (by decide)⟩,
   (upsertEmail_idempotent {} 1 msgW [2]).2.2⟩

/-- One audit row of the `workflow_run_activity` table. -/
structure ActivityRow where
  run_id : Nat
  email_id : Nat
  action_type : String
deriving Repr, DecidableEq

/-- An email row as the apply-filter query returns it: `(id, provider_id)`. -/
structure EmailLite where
  id : Nat
  provider_id : String
deriving Repr, DecidableEq

/-- The mail-client dispatch of `_apply_action`: `mark_read` calls
`mark_as_read`, `move` calls `move_to_folder`, any other action calls
nothing. `mrFails` and `mvFails` are oracles for which provider ids make the
respective client call raise. -/
def emailClientCall (mrFails mvFails : String → Bool) (action : String)
    (provider_id : String) : Except PyErr Unit :=
  if action = "mark_read" then
    if mrFails provider_id then .error (.valueError "client error") else .ok ()
  else if action = "move" then
    if mvFails provider_id then .error (.valueError "client error") else .ok ()
  else .ok ()

/-- The body of the `try` block of `_apply_action`: the client call, then one
audit log row for the run. -/
def applyActionTry (mrFails mvFails : String → Bool) (action : String) (run_id : Nat)
    (logs : List ActivityRow) (e : EmailLite) : Except PyErr (List ActivityRow) :=
  match emailClientCall mrFails mvFails action e.provider_id with
  | .error err => .error err
  | .ok _ => .ok (logs ++ [⟨run_id, e.id, action⟩])

/-- `_apply_action` itself: its whole body is wrapped in try/except and the
exception is only logged, so the method always returns; on failure no audit
row is appended for that email. -/
def applyAction (mrFails mvFails : String → Bool) (action : String) (run_id : Nat)
    (logs : List ActivityRow) (e : EmailLite) : List ActivityRow :=
  match applyActionTry mrFails mvFails action run_id logs e with
  | .ok logs' => logs'
  | .error _ => logs

/-- The audit row `_apply_action` contributes for one email: `some` when the
client call succeeds, `none` when it raises. -/
def actionOutcome (mrFails mvFails : String → Bool) (action : String) (run_id : Nat)
    (e : EmailLite) : Option ActivityRow :=
  match emailClientCall mrFails mvFails action e.provider_id with
  | .ok _ => some ⟨run_id, e.id, action⟩
  | .error _ => none

/-- The inner for loop and outer while loop of `_apply_rule`, applied to the
batches the pagination yields. -/
def applyActionsBatches (mrFails mvFails : String → Bool) (action : String) (run_id : Nat)
    (batches : List (List EmailLite)) (logs : List ActivityRow) : List ActivityRow :=
  batches.foldl
    (fun lg batch => batch.foldl (applyAction mrFails mvFails action run_id) lg) logs

lemma applyAction_eq_outcome (mrFails mvFails : String → Bool) (action : String)
    (run_id : Nat) (logs : List ActivityRow) (e : EmailLite) :
    applyAction mrFails mvFails action run_id logs e =
      logs ++ (actionOutcome mrFails mvFails action run_id e).toList := by
  unfold applyAction applyActionTry actionOutcome
  cases emailClientCall mrFails mvFails action e.provider_id <;> simp

lemma foldl_applyAction_eq (mrFails mvFails : String → Bool) (action : String)
    (run_id : Nat) :
    ∀ (l : List EmailLite) (logs : List ActivityRow),
      l.foldl (applyAction mrFails mvFails action run_id) logs =
        logs ++ l.filterMap (actionOutcome mrFails mvFails action run_id) := by
  intro l
  induction l with
  | nil => intro logs; simp
  | cons e l ih =>
    intro logs
    rw [List.foldl_cons, ih, applyAction_eq_outcome, List.filterMap_cons]
    cases actionOutcome mrFails mvFails action run_id e <;> simp

lemma applyActionsBatches_eq (mrFails mvFails : String → Bool) (action : String)
    (run_id : Nat) :
    ∀ (batches : List (List EmailLite)) (logs : List ActivityRow),
      applyActionsBatches mrFails mvFails action run_id batches logs =
        logs ++ batches.flatten.filterMap (actionOutcome mrFails mvFails action run_id) := by
  intro batches
  induction batches with
  | nil => intro logs; simp [applyActionsBatches]
  | cons b bs ih =>
    intro logs
    unfold applyActionsBatches at ih ⊢
    rw [List.foldl_cons, foldl_applyAction_eq, ih, List.flatten_cons,
      List.filterMap_append, List.append_assoc]

/-- The folder-id comprehension of `_process_email`: the ids of the
message's folders that appear in the folder map (absent names are skipped). -/
def folderIdsOf (folder_map : List (String × Nat)) (m : Message) : List Nat :=
  m.folders.filterMap (fun fname => (folder_map.find? (fun p => p.1 = fname)).map (fun p => p.2))

/-- The body of the `try` block of `_process_email`, as a state transition
returning the new store and the raised exception if any: `upsertRaises`
tells which provider ids make the storage layer raise mid-upsert, and
`partialEffect` gives the store state the interrupted upsert leaves behind
(uncommitted partial writes; constrained in the theorems only to not remove
existing rows). -/
def processEmailStep (upsertRaises : String → Bool)
    (partialEffect : EmailStore → Message → EmailStore)
    (folder_map : List (String × Nat)) (user_id : Nat) (σ : EmailStore) (m : Message) :
    EmailStore × Option PyErr :=
  if upsertRaises m.id then (partialEffect σ m, some (.valueError "db error"))
  else (upsertEmail σ user_id m (folderIdsOf folder_map m), none)

/-- `_process_email` itself: the try/except around the upsert swallows the
exception after logging it, so the method always returns the (possibly
partial) store. -/
def processEmailCaught (upsertRaises : String → Bool)
    (partialEffect : EmailStore → Message → EmailStore)
    (folder_map : List (String × Nat)) (user_id : Nat) (σ : EmailStore) (m : Message) :
    EmailStore :=
  (processEmailStep upsertRaises partialEffect folder_map user_id σ m).1

/-- The message loops of `_pull_messages`: every batch the client yields, and
every message of each batch, is processed in order. -/
def pullMessagesLoop (upsertRaises : String → Bool)
    (partialEffect : EmailStore → Message → EmailStore)
    (folder_map : List (String × Nat)) (user_id : Nat)
    (batches : List (List Message)) (σ : EmailStore) : EmailStore :=
  batches.foldl
    (fun s batch =>
      batch.foldl (processEmailCaught upsertRaises partialEffect folder_map user_id) s) σ

lemma pullMessagesLoop_eq_flatten (upsertRaises : String → Bool)
    (partialEffect : EmailStore → Message → EmailStore)
    (folder_map : List (String × Nat)) (user_id : Nat) :
    ∀ (batches : List (List Message)) (σ : EmailStore),
      pullMessagesLoop upsertRaises partialEffect folder_map user_id batches σ =
        batches.flatten.foldl
          (processEmailCaught upsertRaises partialEffect folder_map user_id) σ := by
  intro batches
  induction batches with
  | nil => intro σ; rfl
  | cons b bs ih =>
    intro σ
    unfold pullMessagesLoop at ih ⊢
    rw [List.foldl_cons, ih, List.flatten_cons, List.foldl_append]

lemma upsertEmail_emails_extend (σ : EmailStore) (user_id : Nat) (m : Message)
    (folder_ids : List Nat) :
    ∃ l, (upsertEmail σ user_id m folder_ids).emails = σ.emails ++ l := by
  unfold upsertEmail
  split
  · exact ⟨[], by simp⟩
  · exact ⟨_, rfl⟩

lemma processEmailCaught_emails_extend {upsertRaises : String → Bool}
    {partialEffect : EmailStore → Message → EmailStore}
    (hmono : ∀ σ' m', ∃ l, (partialEffect σ' m').emails = σ'.emails ++ l)
    (folder_map : List (String × Nat)) (user_id : Nat) (σ : EmailStore) (m : Message) :
    ∃ l, (processEmailCaught upsertRaises partialEffect folder_map user_id σ m).emails =
      σ.emails ++ l := by
  unfold processEmailCaught processEmailStep
  split
  · exact hmono σ m
  · exact upsertEmail_emails_extend σ user_id m (folderIdsOf folder_map m)

lemma countEmails_pos_of_extend {σ σ' : EmailStore} {user_id : Nat} {m : Message}
    (hext : ∃ l, σ'.emails = σ.emails ++ l) (h : 0 < countEmails σ user_id m) :
    0 < countEmails σ' user_id m := by
  obtain ⟨l, hl⟩ := hext
  unfold countEmails at h ⊢
  rw [hl, List.countP_append]
  omega

lemma foldl_processEmailCaught_pos {upsertRaises : String → Bool}
    {partialEffect : EmailStore → Message → EmailStore}
    (hmono : ∀ σ' m', ∃ l, (partialEffect σ' m').emails = σ'.emails ++ l)
    (folder_map : List (String × Nat)) (user_id : Nat) {m : Message} :
    ∀ (l : List Message) (σ : EmailStore), 0 < countEmails σ user_id m →
      0 < countEmails
        (l.foldl (processEmailCaught upsertRaises partialEffect folder_map user_id) σ)
        user_id m := by
  intro l
  induction l with
  | nil => intro σ h; exact h
  | cons m' l ih =>
    intro σ h
    rw [List.foldl_cons]
    exact ih _ (countEmails_pos_of_extend
      (processEmailCaught_emails_extend hmono folder_map user_id σ m') h)

/-- Claim C4: per-email failures are isolated. If applying the configured
action to one email raises, the exception is caught inside `_apply_action`
and every remaining email in that batch and in subsequent batches is still
processed: the final audit log extends the initial one with exactly one row
per non-failing email of all batches, in order, and the loop itself returns
(the run is not aborted). Likewise, a per-message upsert failure during
ingestion is caught inside `_process_email`: the message loop is the total
fold over all messages of all batches, and every message whose upsert does
not raise ends up stored (its (user, provider id) row is present in the
final store) regardless of failures around it — provided the interrupted
upserts do not remove existing rows (`hmono`). -/
theorem perEmail_failure_isolation
    (mrFails mvFails : String → Bool) (action : String) (run_id : Nat)
    (batches : List (List EmailLite)) (logs : List ActivityRow)
    (upsertRaises : String → Bool) (partialEffect : EmailStore → Message → EmailStore)
    (folder_map : List (String × Nat)) (user_id : Nat)
    (mbatches : List (List Message)) (σ : EmailStore)
    (hmono : ∀ σ' m', ∃ l, (partialEffect σ' m').emails = σ'.emails ++ l) :
    applyActionsBatches mrFails mvFails action run_id batches logs =
      logs ++ batches.flatten.filterMap (actionOutcome mrFails mvFails action run_id) ∧
    pullMessagesLoop upsertRaises partialEffect folder_map user_id mbatches σ =
      mbatches.flatten.foldl
        (processEmailCaught upsertRaises partialEffect folder_map user_id) σ ∧
    ∀ m ∈ mbatches.flatten, upsertRaises m.id = false →
      0 < countEmails
        (pullMessagesLoop upsertRaises partialEffect folder_map user_id mbatches σ)
        user_id m := by
  refine ⟨applyActionsBatches_eq mrFails mvFails action run_id batches logs,
    pullMessagesLoop_eq_flatten upsertRaises partialEffect folder_map user_id mbatches σ,
    ?_⟩
  intro m hm hok
  rw [pullMessagesLoop_eq_flatten]
  obtain ⟨s, t, hst⟩ := List.append_of_mem hm
  rw [hst, List.foldl_append, List.foldl_cons]
  refine foldl_processEmailCaught_pos hmono folder_map user_id t _ ?_
  have hstep : processEmailCaught upsertRaises partialEffect folder_map user_id
      (s.foldl (processEmailCaught upsertRaises partialEffect folder_map user_id) σ) m =
      upsertEmail (s.foldl (processEmailCaught upsertRaises partialEffect folder_map user_id) σ)
        user_id m (folderIdsOf folder_map m) := by
    unfold processEmailCaught processEmailStep
    rw [if_neg (by rw [hok]; exact Bool.false_ne_true)]
  rw [hstep]
  exact upsertEmail_count_pos _ user_id m _

/-- Messages for the C4 witness: the middle one raises during upsert. -/
def msgA : Message := { id := "pa", subject := "a" }

/-- Second witness message; its upsert raises. -/
def msgB : Message := { id := "pb", subject := "b" }

/-- Third witness message, in a later batch. -/
def msgC : Message := { id := "pc", subject := "c" }

/-- Witness for `perEmail_failure_isolation`: the second email's `mark_read`
raises and the second message's upsert raises, yet the third email still
gets its audit row and the third message is still stored. -/
theorem perEmail_failure_isolation_witness :
    (applyActionsBatches (fun p => p == "p2") (fun _ => false) "mark_read" 4
        [[⟨10, "p1"⟩, ⟨9, "p2"⟩], [⟨8, "p3"⟩]] [] =
      [] ++ ([[⟨10, "p1"⟩, ⟨9, "p2"⟩], [⟨8, "p3"⟩]] : List (List EmailLite)).flatten.filterMap
        (actionOutcome (fun p => p == "p2") (fun _ => false) "mark_read" 4) ∧
    pullMessagesLoop (fun p => p == "pb") (fun σ' _ => σ') [("INBOX", 2)] 1
        [[msgA, msgB], [msgC]] {} =
      ([[msgA, msgB], [msgC]] : List (List Message)).flatten.foldl
        (processEmailCaught (fun p => p == "pb") (fun σ' _ => σ') [("INBOX", 2)] 1) {} ∧
    ∀ m ∈ ([[msgA, msgB], [msgC]] : List (List Message)).flatten,
      (fun p => p == "pb") m.id = false →
      0 < countEmails
        (pullMessagesLoop (fun p => p == "pb") (fun σ' _ => σ') [("INBOX", 2)] 1
          [[msgA, msgB], [msgC]] {}) 1 m) ∧
    0 < countEmails
      (pullMessagesLoop (fun p => p == "pb") (fun σ' _ => σ') [("INBOX", 2)] 1
        [[msgA, msgB], [msgC]] {}) 1 msgC :=
  have h := perEmail_failure_isolation (fun p => p == "p2") (fun _ => false) "mark_read" 4
    [[⟨10, "p1"⟩, ⟨9, "p2"⟩], [⟨8, "p3"⟩]] [] (fun p => p == "pb") (fun σ' _ => σ')
    [("INBOX", 2)] 1 [[msgA, msgB], [msgC]] {} (fun σ' m' => ⟨[], by simp⟩)
  ⟨h, h.2.2 msgC (by decide) (by decide)⟩

/-- A row of the `workflow` table: content-addressed by `hash`. -/
structure WorkflowRow where
  id : Nat
  hash : String
  content : String
deriving Repr, DecidableEq

/-- A row of the `workflow_run` table. -/
structure WorkflowRunRow where
  id : Nat
  workflow_id : Nat
  status : String
deriving Repr, DecidableEq

/-- The workflow tables of the store, with per-table serial id counters
(PostgreSQL serial ids start at 1). -/
structure WfStore where
  workflows : List WorkflowRow := []
  workflow_runs : List WorkflowRunRow := []
  nextWorkflowId : Nat := 1
  nextRunId : Nat := 1
deriving Repr, DecidableEq

/-- The `add_workflow_run` method of `src/repositories/workflow.py`,
parameterized by the hash function (the source uses SHA-256 over the JSON
serialization; only that it is a function of the content matters here):
fetch the workflow row by content hash; if its id is falsy (absent row),
insert a new workflow row; then always insert a fresh run row with status
"yet_to_start". Returns (store, workflow id, run id). -/
def addWorkflowRun (hashFn : String → String) (σ : WfStore) (content : String) :
    WfStore × Nat × Nat :=
  let h := hashFn content
  let widOpt := (σ.workflows.find? (fun w => w.hash = h)).map (fun w => w.id)
  let step :=
    if pyTruthyNat widOpt then (σ, widOpt.getD 0)
    else
      ({ σ with
          workflows := σ.workflows ++ [⟨σ.nextWorkflowId, h, content⟩],
          nextWorkflowId := σ.nextWorkflowId + 1 },
        σ.nextWorkflowId)
  let σ1 := step.1
  let wid := step.2
  let rid := σ1.nextRunId
  ({ σ1 with
      workflow_runs := σ1.workflow_runs ++ [⟨rid, wid, "yet_to_start"⟩],
      nextRunId := rid + 1 },
    wid, rid)

/-- The `mark_workflow_run_as_started` method: set status "running" on the
`workflow_run` rows whose id equals the argument. -/
def markWorkflowRunAsStarted (σ : WfStore) (run_id : Nat) : WfStore :=
  { σ with workflow_runs := σ.workflow_runs.map (fun r =>
      if r.id = run_id then { r with status := "running" } else r) }

/-- The `mark_workflow_run_as_completed` method: set status "completed"
(success) or "failed" on the `workflow_run` rows whose id equals the
argument. -/
def markWorkflowRunAsCompleted (σ : WfStore) (run_id : Nat) (is_successful : Bool) :
    WfStore :=
  { σ with workflow_runs := σ.workflow_runs.map (fun r =>
      if r.id = run_id then
        { r with status := if is_successful then "completed" else "failed" }
      else r) }

/-- The `_process_rules` method of the workflow processor, after the file
parse: schema validation (`valid` abstracts the external jsonschema check
against the static schema file, which is outside the repository), user
lookup (`userId` is the authenticated user's row id, `none` when absent),
persistence of the workflow and a fresh run row, then the status updates
around the batch loop, whose outcome is `bodyErr` (`none` when `_apply_rule`
returns normally, otherwise the escaped exception). NOTE: faithful to the
source (lines 109-115), the value passed to both
`mark_workflow_run_as_started` and `mark_workflow_run_as_completed` is
`workflow_id`, not the fresh `run_id`. -/
def processRulesFlow (valid : Bool) (userId : Option Nat) (bodyErr : Option PyErr)
    (hashFn : String → String) (σ : WfStore) (content : String) :
    Except PyErr Unit × WfStore :=
  if ¬ valid then (.error .validationError, σ)
  else match userId with
  | none =>
    (.error (.valueError
      "User is not found. First attempt to fetch emails using the fetch command."), σ)
  | some _ =>
    let r := addWorkflowRun hashFn σ content
    let σ2 := markWorkflowRunAsStarted r.1 r.2.1
    match bodyErr with
    | none => (.ok (), markWorkflowRunAsCompleted σ2 r.2.1 true)
    | some e => (.error e, markWorkflowRunAsCompleted σ2 r.2.1 false)

/-- Claim C9: when the workflow document violates the schema, `_process_rules`
raises `ValidationError` before any persistence: the returned store is the
input store unchanged — in particular no `workflow` row and no
`workflow_run` row was created — for every hash function, user-lookup
outcome and body outcome. -/
theorem validation_before_persistence (userId : Option Nat) (bodyErr : Option PyErr)
    (hashFn : String → String) (σ : WfStore) (content : String) :
    processRulesFlow false userId bodyErr hashFn σ content = (.error .validationError, σ) ∧
    (processRulesFlow false userId bodyErr hashFn σ content).2.workflows = σ.workflows ∧
    (processRulesFlow false userId bodyErr hashFn σ content).2.workflow_runs =
      σ.workflow_runs :=
  ⟨rfl, rfl, rfl⟩




lemma addWorkflowRun_absent {hashFn : String → String} {σ : WfStore} {content : String}
    (hfind : σ.workflows.find? (fun w => w.hash = hashFn content) = none) :
    addWorkflowRun hashFn σ content =
      (⟨σ.workflows ++ [⟨σ.nextWorkflowId, hashFn content, content⟩],
        σ.workflow_runs ++ [⟨σ.nextRunId, σ.nextWorkflowId, "yet_to_start"⟩],
        σ.nextWorkflowId + 1, σ.nextRunId + 1⟩,
       σ.nextWorkflowId, σ.nextRunId) := by
  simp [addWorkflowRun, hfind, pyTruthyNat]

lemma addWorkflowRun_present {hashFn : String → String} {σ : WfStore} {content : String}
    {w : WorkflowRow}
    (hfind : σ.workflows.find? (fun x => x.hash = hashFn content) = some w)
    (hw : w.id ≠ 0) :
    addWorkflowRun hashFn σ content =
      (⟨σ.workflows,
        σ.workflow_runs ++ [⟨σ.nextRunId, w.id, "yet_to_start"⟩],
        σ.nextWorkflowId, σ.nextRunId + 1⟩,
       w.id, σ.nextRunId) := by
  simp [addWorkflowRun, hfind, pyTruthyNat, hw]

/-- Claim C8: submitting the identical workflow document twice against a
store that does not yet contain it creates exactly one `workflow` row keyed
by the content hash, returns the same workflow id both times, and creates
two `workflow_run` rows with distinct ids, each referencing that single
workflow row and starting as "yet_to_start". -/
theorem addWorkflowRun_dedup (hashFn : String → String) (σ : WfStore) (content : String)
    (hfresh : ∀ w ∈ σ.workflows, w.hash ≠ hashFn content)
    (hpos : σ.nextWorkflowId ≠ 0) :
    (addWorkflowRun hashFn (addWorkflowRun hashFn σ content).1 content).2.1 =
      (addWorkflowRun hashFn σ content).2.1 ∧
    ((addWorkflowRun hashFn (addWorkflowRun hashFn σ content).1 content).1.workflows.filter
      (fun w => w.hash = hashFn content)).length = 1 ∧
    (addWorkflowRun hashFn (addWorkflowRun hashFn σ content).1 content).2.2 ≠
      (addWorkflowRun hashFn σ content).2.2 ∧
    (⟨(addWorkflowRun hashFn σ content).2.2, (addWorkflowRun hashFn σ content).2.1,
      "yet_to_start"⟩ : WorkflowRunRow) ∈
      (addWorkflowRun hashFn (addWorkflowRun hashFn σ content).1 content).1.workflow_runs ∧
    (⟨(addWorkflowRun hashFn (addWorkflowRun hashFn σ content).1 content).2.2,
      (addWorkflowRun hashFn (addWorkflowRun hashFn σ content).1 content).2.1,
      "yet_to_start"⟩ : WorkflowRunRow) ∈
      (addWorkflowRun hashFn (addWorkflowRun hashFn σ content).1 content).1.workflow_runs := by
  have hfind1 : σ.workflows.find? (fun w => w.hash = hashFn content) = none :=
    List.find?_eq_none.mpr (fun w hw => by simp [hfresh w hw])
  have h1 := addWorkflowRun_absent hfind1
  have hfind2 : (σ.workflows ++
      ([⟨σ.nextWorkflowId, hashFn content, content⟩] : List WorkflowRow)).find?
      (fun x => x.hash = hashFn content) =
      some ⟨σ.nextWorkflowId, hashFn content, content⟩ := by
    rw [List.find?_append, hfind1]
    simp
  rw [h1]
  dsimp only
  have h2 := addWorkflowRun_present (σ :=
    ⟨σ.workflows ++ [⟨σ.nextWorkflowId, hashFn content, content⟩],
      σ.workflow_runs ++ [⟨σ.nextRunId, σ.nextWorkflowId, "yet_to_start"⟩],
      σ.nextWorkflowId + 1, σ.nextRunId + 1⟩) hfind2 hpos
  rw [h2]
  dsimp only
  have hfilter : (σ.workflows.filter (fun w => w.hash = hashFn content)) = [] :=
    List.filter_eq_nil_iff.mpr (fun w hw => by simp [hfresh w hw])
  refine ⟨rfl, ?_, by omega, by simp, by simp⟩
  rw [List.filter_append, hfilter]
  simp

/-- A concrete stand-in hash function for witnesses and scenarios: the model
is parameterized by the hash function (the source uses SHA-256, an external
library call), and these scenarios only need it to be a function. -/
def hashIdFn : String → String := fun s => s

/-- Witness for `addWorkflowRun_dedup`: the empty store and a concrete
document. -/
theorem addWorkflowRun_dedup_witness :
    (addWorkflowRun hashIdFn (addWorkflowRun hashIdFn {} "wf").1 "wf").2.1 =
      (addWorkflowRun hashIdFn {} "wf").2.1 ∧
    ((addWorkflowRun hashIdFn (addWorkflowRun hashIdFn {} "wf").1 "wf").1.workflows.filter
      (fun w => w.hash = hashIdFn "wf")).length = 1 ∧
    (addWorkflowRun hashIdFn (addWorkflowRun hashIdFn {} "wf").1 "wf").2.2 ≠
      (addWorkflowRun hashIdFn {} "wf").2.2 ∧
    (⟨(addWorkflowRun hashIdFn {} "wf").2.2, (addWorkflowRun hashIdFn {} "wf").2.1,
      "yet_to_start"⟩ : WorkflowRunRow) ∈
      (addWorkflowRun hashIdFn (addWorkflowRun hashIdFn {} "wf").1 "wf").1.workflow_runs ∧
    (⟨(addWorkflowRun hashIdFn (addWorkflowRun hashIdFn {} "wf").1 "wf").2.2,
      (addWorkflowRun hashIdFn (addWorkflowRun hashIdFn {} "wf").1 "wf").2.1,
      "yet_to_start"⟩ : WorkflowRunRow) ∈
      (addWorkflowRun hashIdFn (addWorkflowRun hashIdFn {} "wf").1 "wf").1.workflow_runs :=
  addWorkflowRun_dedup hashIdFn {} "wf" (by decide) (by decide)

/-- The store after processing the document "wf" once from an empty store,
with a valid document, a found user, and a successful batch loop. -/
def runOnceStore : WfStore := (processRulesFlow true (some 7) none hashIdFn {} "wf").2

/-- The store after processing the same document a second time, again with
everything succeeding. -/
def runTwiceStore : WfStore :=
  (processRulesFlow true (some 7) none hashIdFn runOnceStore "wf").2

/-- Claim C1, evaluated at the failing input (the same workflow document
processed twice, all actions succeeding): `_process_rules` passes
`workflow_id` — not the fresh `run_id` — to `mark_workflow_run_as_started`
and `mark_workflow_run_as_completed`. After the first invocation run row 1
is "completed" only because workflow id and run id coincide (both 1). The
second invocation creates run row 2 ("yet_to_start") referencing workflow 1,
then marks run row 1 — the previous, already completed run — as "running"
(a regression from a terminal state) while the active run row 2 is still
"yet_to_start" during the whole batch loop, and in the final store run row 2
remains "yet_to_start" forever. -/
theorem processRules_updates_wrong_run_row :
    runOnceStore.workflow_runs = [⟨1, 1, "completed"⟩] ∧
    (addWorkflowRun hashIdFn runOnceStore "wf").2.2 = 2 ∧
    (addWorkflowRun hashIdFn runOnceStore "wf").2.1 = 1 ∧
    (markWorkflowRunAsStarted (addWorkflowRun hashIdFn runOnceStore "wf").1
      (addWorkflowRun hashIdFn runOnceStore "wf").2.1).workflow_runs =
      [⟨1, 1, "running"⟩, ⟨2, 1, "yet_to_start"⟩] ∧
    runTwiceStore.workflow_runs = [⟨1, 1, "completed"⟩, ⟨2, 1, "yet_to_start"⟩] :=
  ⟨by decide, by decide, by decide, by decide, by decide⟩

/-- The fetch command's params dict. -/
structure FetchParams where
  folder : Option String := none
deriving Repr, DecidableEq

/-- The `execute` method of `WorkflowProcessor`: the whole body — the params
check (`params.get` on `None` raises `AttributeError`; a missing or empty
path raises `ValueError`), the file parse (`parseResult`), and
`_process_rules` — runs inside one try/except whose handler only logs, so
`execute` itself returns normally with the store left as the body left it. -/
def workflowExecute (valid : Bool) (userId : Option Nat) (bodyErr : Option PyErr)
    (hashFn : String → String) (parseResult : Except PyErr String)
    (params : Option (Option String)) (σ : WfStore) : Except PyErr Unit × WfStore :=
  let inner : Except PyErr Unit × WfStore :=
    match params with
    | none => (.error .attributeError, σ)
    | some fp =>
      if ¬ pyTruthyStr fp then (.error (.valueError "Workflow file path is required."), σ)
      else
        match parseResult with
        | .error e => (.error e, σ)
        | .ok content => processRulesFlow valid userId bodyErr hashFn σ content
  (.ok (), inner.2)

/-- The body of `EmailFetcher.execute`: authenticate, upsert the user, sync
folders, then pull messages — each stage may raise (modelled as the stage
oracles' `Except` results); `params.get("folder")` on `None` params raises
`AttributeError`. -/
def emailFetcherInner (auth : Except PyErr String)
    (processUser : String → Except PyErr Nat)
    (processFolders : Nat → Except PyErr Unit)
    (processEmails : Nat → Option String → Except PyErr Unit)
    (params : Option FetchParams) : Except PyErr Unit :=
  match auth with
  | .error e => .error e
  | .ok addr =>
    match processUser addr with
    | .error e => .error e
    | .ok uid =>
      match processFolders uid with
      | .error e => .error e
      | .ok _ =>
        match params with
        | none => .error .attributeError
        | some p => processEmails uid p.folder

/-- The `execute` method of `EmailFetcher`: the whole body runs inside one
try/except whose handler only logs, so `execute` always returns normally. -/
def emailFetcherExecute (auth : Except PyErr String)
    (processUser : String → Except PyErr Nat)
    (processFolders : Nat → Except PyErr Unit)
    (processEmails : Nat → Option String → Except PyErr Unit)
    (params : Option FetchParams) : Except PyErr Unit :=
  match emailFetcherInner auth processUser processFolders processEmails params with
  | .ok _ => .ok ()
  | .error _ => .ok ()

/-- Claim C10: the public `execute` entry points of the workflow processor
and the email fetcher return normally on every input: whatever the params,
parse result, validation outcome, user lookup, batch-loop outcome or client
stage errors — including the structural errors that mark a run failed — the
exception is caught at the top of `execute` and only logged, never
propagated to the caller. -/
theorem execute_never_propagates (valid : Bool) (userId : Option Nat)
    (bodyErr : Option PyErr) (hashFn : String → String)
    (parseResult : Except PyErr String) (params : Option (Option String)) (σ : WfStore)
    (auth : Except PyErr String) (processUser : String → Except PyErr Nat)
    (processFolders : Nat → Except PyErr Unit)
    (processEmails : Nat → Option String → Except PyErr Unit)
    (fparams : Option FetchParams) :
    (workflowExecute valid userId bodyErr hashFn parseResult params σ).1 = .ok () ∧
    emailFetcherExecute auth processUser processFolders processEmails fparams = .ok () := by
  constructor
  · rfl
  · unfold emailFetcherExecute
    cases emailFetcherInner auth processUser processFolders processEmails fparams <;> rfl
